import Mathlib

/-!
Formal model of the TaskGenie AI task manager's core logic: the task data
model (types.ts), the priority/due-date renumbering operation
(`handleAutoRenumber` in App.tsx), the remote-row normalization and its
inverse (`fetchTasks` / `saveTask` in services/dataService.ts), the
spreadsheet import pipeline (`handleImportCSV` in App.tsx), the two
persistence fetch paths, and the status-toggle operation
(`handleToggleStatus` in App.tsx).

Each definition is a shallow embedding of the corresponding TypeScript
function in the current sources.  Timestamps (ISO-8601 strings in the
source) are represented by their epoch-millisecond values, which is what
the renumber comparator (`new Date(dueDate).getTime()`) compares.
JavaScript's stable `Array.prototype.sort` is modelled by `List.mergeSort`.
-/

namespace TaskGenie

/-- Task priority enumeration (types.ts `enum Priority`, string-valued
`Low` / `Medium` / `High` / `Urgent`). -/
inductive Priority where
  | low
  | medium
  | high
  | urgent
deriving DecidableEq, Repr

/-- Task status enumeration (types.ts `enum Status`, string-valued
`Pending` / `In Progress` / `Completed`). -/
inductive Status where
  | pending
  | inProgress
  | completed
deriving DecidableEq, Repr

/-- A subtask (types.ts `interface SubTask`). -/
structure SubTask where
  id : String
  title : String
  isCompleted : Bool
deriving DecidableEq, Repr

/-- The canonical task model (types.ts `interface Task`).  `dueDate` is an
ISO-8601 string in the source and is represented by its epoch-millisecond
value; `createdAt` is the `Date.now()` millisecond count. -/
structure Task where
  id : String
  serialNumber : Int
  title : String
  description : String
  priority : Priority
  status : Status
  dueDate : Int
  createdAt : Int
  subtasks : List SubTask
  tags : List String
  images : List String
  progressNotes : String
deriving DecidableEq, Repr

/-- The `priorityWeight` record of `handleAutoRenumber` (App.tsx):
Urgent = 4, High = 3, Medium = 2, Low = 1. -/
def priorityWeight : Priority → Nat
  | .urgent => 4
  | .high => 3
  | .medium => 2
  | .low => 1

/-- The sort comparator of `handleAutoRenumber` (App.tsx): first
`priorityWeight[b.priority] - priorityWeight[a.priority]` (descending
priority weight), and on priority ties `dateA - dateB` (ascending due
date). -/
def renumberCmp (a b : Task) : Int :=
  let pDiff : Int := (priorityWeight b.priority : Int) - (priorityWeight a.priority : Int)
  if pDiff ≠ 0 then pDiff else a.dueDate - b.dueDate

/-- `Array.prototype.sort` with comparator `c` is a stable sort that places
`a` no later than `b` whenever `c a b ≤ 0`; this boolean order is what we
feed to the stable `List.mergeSort`. -/
def renumberLE (a b : Task) : Bool := decide (renumberCmp a b ≤ 0)

/-- `handleAutoRenumber` (App.tsx): stable-sorts the collection with
`renumberCmp` and reassigns `serialNumber := index + 1` over the sorted
order. -/
def handleAutoRenumber (tasks : List Task) : List Task :=
  let sortedTasks := tasks.mergeSort renumberLE
  sortedTasks.enum.map fun p => { p.2 with serialNumber := (p.1 : Int) + 1 }

/-- Forgets the serial number (used to state which task data the renumber
operation permutes but leaves otherwise untouched). -/
def clearSerial (t : Task) : Task := { t with serialNumber := 0 }

/-- Forgets the status (used to state that the toggle operation changes
nothing but the status). -/
def clearStatus (t : Task) : Task := { t with status := Status.pending }

/-- A row of the remote `tasks` table as the code reads it: every column may
be absent (`undefined`) since the backend rows are duck-typed (`(t: any)`).
Field names follow the snake_case column names of dataService.ts. -/
structure DbRow where
  id : Option String
  user_id : Option String
  title : Option String
  serial_number : Option Int
  description : Option String
  priority : Option Priority
  status : Option Status
  due_date : Option Int
  created_at : Option Int
  subtasks : Option (List SubTask)
  tags : Option (List String)
  images : Option (List String)
  progress_notes : Option String
deriving DecidableEq, Repr

/-- JavaScript `x || d` for a string-valued field: `undefined`/`null` and
the empty string are falsy. -/
def jsOrString (x : Option String) (d : String) : String :=
  match x with
  | none => d
  | some s => if s = "" then d else s

/-- What the row-to-task mapping of `fetchTasks` (dataService.ts) actually
produces: each field is copied from the row without validation, so the
fields that are not defaulted may be absent.  The collections are defaulted
(`t.subtasks || []` — a JS array is always truthy, so a present empty array
is kept as-is), and `progress_notes || ''` defaults the notes. -/
structure RawTask where
  id : Option String
  serialNumber : Option Int
  title : Option String
  description : Option String
  priority : Option Priority
  status : Option Status
  dueDate : Option Int
  createdAt : Option Int
  subtasks : List SubTask
  tags : List String
  images : List String
  progressNotes : String
deriving DecidableEq, Repr

/-- The row normalization performed by `fetchTasks` (dataService.ts,
remote branch): snake_case columns to camelCase fields.  The mapping is
total: it contains no validation and no failure path; an absent `id` or
`title` is passed through as absent. -/
def toCanonical (r : DbRow) : RawTask :=
  { id := r.id
    serialNumber := r.serial_number
    title := r.title
    description := r.description
    priority := r.priority
    status := r.status
    dueDate := r.due_date
    createdAt := r.created_at
    subtasks := r.subtasks.getD []
    tags := r.tags.getD []
    images := r.images.getD []
    progressNotes := jsOrString r.progress_notes "" }

/-- The `dbTask` row built by `saveTask` (dataService.ts): camelCase task
fields mapped to snake_case columns, every column present. -/
def toStorage (userId : String) (t : Task) : DbRow :=
  { id := some t.id
    user_id := some userId
    title := some t.title
    serial_number := some t.serialNumber
    description := some t.description
    priority := some t.priority
    status := some t.status
    due_date := some t.dueDate
    created_at := some t.createdAt
    subtasks := some t.subtasks
    tags := some t.tags
    images := some t.images
    progress_notes := some t.progressNotes }

/-- The evident embedding of a fully-populated `Task` into the raw shape
`fetchTasks` produces; `toRaw t₁ = toRaw t₂` exactly when `t₁ = t₂`. -/
def Task.toRaw (t : Task) : RawTask :=
  { id := some t.id
    serialNumber := some t.serialNumber
    title := some t.title
    description := some t.description
    priority := some t.priority
    status := some t.status
    dueDate := some t.dueDate
    createdAt := some t.createdAt
    subtasks := t.subtasks
    tags := t.tags
    images := t.images
    progressNotes := t.progressNotes }

/-- `fetchTasks` (dataService.ts), remote branch.  The supabase response
either carries an error — the code rethrows it (`throw new
Error(error.message)`) — or carries `data` (possibly null, hence
`(data || [])`), which is normalized row by row. -/
def fetchTasksRemote (resp : Except String (Option (List DbRow))) :
    Except String (List RawTask) :=
  match resp with
  | .error e => .error e
  | .ok none => .ok []
  | .ok (some data) => .ok (data.map toCanonical)

/-- `fetchTasks` (dataService.ts), local branch: reads the per-user blob
from localStorage (`none` models a missing key, JS `null`) and returns
`saved ? JSON.parse(saved) : []`.  The `JSON.parse` builtin is passed in as
`jsonParse`; there is no try/catch around the call.  (A present empty
string is falsy, hence also yields `[]`.) -/
def fetchTasksLocal (jsonParse : String → Except String (List Task))
    (saved : Option String) : Except String (List Task) :=
  match saved with
  | none => .ok []
  | some s => if s = "" then .ok [] else jsonParse s

/-- Minimal model of the external `JSON.parse` builtin on the blob shapes
exercised by the theorems below: the serialized empty collection parses to
the empty list, while a malformed fragment such as a lone opening brace
raises a SyntaxError. -/
def jsonParseModel (s : String) : Except String (List Task) :=
  if s = "[]" then .ok []
  else .error "SyntaxError: unexpected end of JSON input"

/-- A spreadsheet cell value as `XLSX.utils.sheet_to_json` delivers it:
a string or a (finite) number.  (Blank cells arrive as the empty string
because the code passes `defval: ""`.) -/
inductive CellVal where
  | str (s : String)
  | num (n : Int)
deriving DecidableEq, Repr

/-- JavaScript truthiness of a cell value: the empty string and 0 are
falsy. -/
def jsTruthy : CellVal → Bool
  | .str s => s ≠ ""
  | .num n => n ≠ 0

/-- JavaScript `String(x)` on a cell value. -/
def jsString : CellVal → String
  | .str s => s
  | .num n => toString n

/-- JavaScript `x || d` where `x` may be `undefined` and `d` is a concrete
default. -/
def jsOrVal (x : Option CellVal) (d : CellVal) : CellVal :=
  match x with
  | some c => if jsTruthy c then c else d
  | none => d

/-- JavaScript `x || y` where both operands may be `undefined`. -/
def jsOrOpt (x y : Option CellVal) : Option CellVal :=
  match x with
  | some c => if jsTruthy c then some c else y
  | none => y

/-- The digits-prefix accumulator used by `jsParseInt`. -/
def digitsToNat (cs : List Char) : Nat :=
  cs.foldl (fun acc c => acc * 10 + (c.toNat - 48)) 0

/-- Helper for `jsParseInt`: parse the leading decimal-digit run, `none`
("NaN") when there is none. -/
def jsParseIntDigits (sign : Int) (cs : List Char) : Option Int :=
  let ds := cs.takeWhile Char.isDigit
  if ds.isEmpty then none else some (sign * (digitsToNat ds : Int))

/-- Model of the `parseInt` builtin in base 10 as the import uses it: skip
leading whitespace, take an optional sign and the leading run of decimal
digits; `none` models `NaN`.  (The builtin's hexadecimal `0x` prefix mode
is never exercised by the numeric cell shapes the import feeds it.) -/
def jsParseInt (s : String) : Option Int :=
  let cs := s.toList.dropWhile fun c => c = ' ' || c = '\t' || c = '\n' || c = '\r'
  match cs with
  | '-' :: rest => jsParseIntDigits (-1) rest
  | '+' :: rest => jsParseIntDigits 1 rest
  | rest => jsParseIntDigits 1 rest

/-- One parsed spreadsheet row as `handleImportCSV` (App.tsx) looks at it.
Each field models `getVal(header)`, the case-insensitive lookup of that
header among the row's keys: `none` is an absent header (`undefined`), a
present-but-blank cell is `some (.str "")`. -/
structure Row where
  title : Option CellVal
  sno : Option CellVal
  serial : Option CellVal
  dueDate : Option CellVal
  due : Option CellVal
  tags : Option CellVal
  priority : Option CellVal
  status : Option CellVal
  description : Option CellVal
  progressNotes : Option CellVal
  progress : Option CellVal
deriving DecidableEq, Repr

/-- `String(getVal('title') || "Untitled Task")` (App.tsx import loop). -/
def importTitle (v : Option CellVal) : String :=
  jsString (jsOrVal v (.str "Untitled Task"))

/-- `String(getVal('description') || "")`. -/
def importDescription (v : Option CellVal) : String :=
  jsString (jsOrVal v (.str ""))

/-- `(getVal('priority') as Priority) || Priority.MEDIUM`: the raw cell
value is kept unvalidated (the `as Priority` cast has no runtime effect);
only a falsy value falls back to `"Medium"`. -/
def importPriorityVal (v : Option CellVal) : CellVal :=
  jsOrVal v (.str "Medium")

/-- `(getVal('status') as Status) || Status.PENDING`: as for the priority,
unvalidated with fallback `"Pending"`. -/
def importStatusVal (v : Option CellVal) : CellVal :=
  jsOrVal v (.str "Pending")

/-- Splitting a character list at every occurrence of the separator
(keeping empty pieces), the semantics of `String.prototype.split` with a
single-character separator. -/
def splitOnChar (sep : Char) : List Char → List (List Char)
  | [] => [[]]
  | x :: xs =>
    if x = sep then [] :: splitOnChar sep xs
    else
      match splitOnChar sep xs with
      | [] => [[x]]
      | y :: ys => (x :: y) :: ys

/-- Model of the `String.prototype.split` builtin with a one-character
separator. -/
def jsSplit (sep : Char) (s : String) : List String :=
  (splitOnChar sep s.toList).map List.asString

/-- Model of the `String.prototype.trim` builtin: strip leading and
trailing whitespace. -/
def jsTrim (s : String) : String :=
  let ws := fun c : Char => c = ' ' || c = '\t' || c = '\n' || c = '\r'
  (((s.toList.dropWhile ws).reverse.dropWhile ws).reverse).asString

/-- `tagsRaw ? String(tagsRaw).split(',').map(t => t.trim()) : []`. -/
def importTags (v : Option CellVal) : List String :=
  match v with
  | none => []
  | some c =>
    if jsTruthy c then (jsSplit ',' (jsString c)).map jsTrim else []

/-- `getVal('s.no') || getVal('serial') || '0'`. -/
def rowSerialVal (r : Row) : CellVal :=
  jsOrVal r.sno (jsOrVal r.serial (.str "0"))

/-- `parseInt(getVal('s.no') || getVal('serial') || '0')`. -/
def rowCsvSerial (r : Row) : Option Int :=
  jsParseInt (jsString (rowSerialVal r))

/-- The test `csvSerial > 0` of the import loop (false for `NaN`). -/
def rowHasPosSerial (r : Row) : Bool :=
  match rowCsvSerial r with
  | some n => decide (0 < n)
  | none => false

/-- A task as the import loop builds it.  `priority` and `status` hold the
raw cell values (the source only casts, it does not validate), and
`dueDateVal` holds the value handed to `parseExcelDate`
(`getVal('due date') || getVal('due')`); the date coercion itself is an
external-builtin concern no claim depends on. -/
structure ImportedTask where
  id : String
  serialNumber : Int
  title : String
  description : String
  priority : CellVal
  status : CellVal
  dueDateVal : Option CellVal
  createdAt : Int
  subtasks : List SubTask
  tags : List String
  images : List String
  progressNotes : String
deriving DecidableEq, Repr

/-- The object pushed onto `newTasks` for one row (App.tsx import loop),
given the generated id, `Date.now()` and the serial number decided for the
row. -/
def mkImportedTask (id : String) (now : Int) (serial : Int) (r : Row) :
    ImportedTask :=
  { id := id
    serialNumber := serial
    title := importTitle r.title
    description := importDescription r.description
    priority := importPriorityVal r.priority
    status := importStatusVal r.status
    dueDateVal := jsOrOpt r.dueDate r.due
    createdAt := now
    subtasks := []
    tags := importTags r.tags
    images := []
    progressNotes := jsString (jsOrVal r.progressNotes (jsOrVal r.progress (.str ""))) }

/-- The `json.forEach` loop of `handleImportCSV`: `i` numbers the generated
ids, `m` is the running `maxSerial`, and each row gets
`csvSerial > 0 ? csvSerial : ++maxSerial` as its serial number.  Every row
produces a task — there is no skip path. -/
def importRowsGo (uuid : Nat → String) (now : Int) :
    Nat → Int → List Row → List ImportedTask
  | _, _, [] => []
  | i, m, r :: rs =>
    if rowHasPosSerial r then
      mkImportedTask (uuid i) now ((rowCsvSerial r).getD 0) r ::
        importRowsGo uuid now (i + 1) m rs
    else
      mkImportedTask (uuid i) now (m + 1) r ::
        importRowsGo uuid now (i + 1) (m + 1) rs

/-- `tasks.length > 0 ? Math.max(...tasks.map(t => t.serialNumber)) : 0`. -/
def maxSerialOf (tasks : List Task) : Int :=
  match tasks.map Task.serialNumber with
  | [] => 0
  | s :: ss => ss.foldl max s

/-- `handleImportCSV` (App.tsx): the sequence of new tasks built from the
parsed rows, with fresh ids from `uuid` and `createdAt := now`. -/
def handleImportCSV (tasks : List Task) (uuid : Nat → String) (now : Int)
    (rows : List Row) : List ImportedTask :=
  importRowsGo uuid now 0 (maxSerialOf tasks) rows

/-- `handleToggleStatus` (App.tsx): looks the task up by id
(`tasks.find`), toggles Completed ↔ Pending when the passed task's status
matches the stored one (an In Progress task goes straight to Completed),
and writes the updated task back over every entry with that id. -/
def handleToggleStatus (tasks : List Task) (task : Task) : List Task :=
  match tasks.find? (fun t => t.id = task.id) with
  | none => tasks
  | some currentTask =>
    let newStatus :=
      if task.status = currentTask.status then
        (if task.status = Status.completed then Status.pending else Status.completed)
      else task.status
    let updatedTask := { task with status := newStatus }
    tasks.map (fun t => if t.id = task.id then updatedTask else t)

/-- A concrete task used by witnesses. -/
def sampleTask (id : String) (serial : Int) (p : Priority) (due : Int) : Task :=
  { id := id
    serialNumber := serial
    title := "T"
    description := ""
    priority := p
    status := Status.pending
    dueDate := due
    createdAt := 0
    subtasks := []
    tags := []
    images := []
    progressNotes := "" }

/-- A row with every header absent. -/
def emptyRow : Row :=
  { title := none, sno := none, serial := none, dueDate := none, due := none
    tags := none, priority := none, status := none, description := none
    progressNotes := none, progress := none }

/-- A row carrying only a title. -/
def rowTitled (s : String) : Row := { emptyRow with title := some (.str s) }

/-- A titled row carrying a tags cell. -/
def rowWithTags (v : CellVal) : Row :=
  { emptyRow with title := some (.str "T"), tags := some v }

/-- A titled row carrying unrecognized priority and status cells. -/
def rowOddEnums : Row :=
  { emptyRow with
      title := some (CellVal.str "T")
      priority := some (CellVal.str "banana")
      status := some (CellVal.str "Odd") }

/-- A DbRow with every column absent. -/
def emptyDbRow : DbRow :=
  { id := none, user_id := none, title := none, serial_number := none
    description := none, priority := none, status := none, due_date := none
    created_at := none, subtasks := none, tags := none, images := none
    progress_notes := none }

theorem renumberLE_iff (a b : Task) :
    renumberLE a b = true ↔
      (priorityWeight b.priority < priorityWeight a.priority ∨
        (priorityWeight a.priority = priorityWeight b.priority ∧
          a.dueDate ≤ b.dueDate)) := by
  simp only [renumberLE, renumberCmp, decide_eq_true_eq]
  split <;> omega

theorem renumberLE_total (a b : Task) : renumberLE a b || renumberLE b a := by
  simp only [Bool.or_eq_true, renumberLE_iff]
  omega

theorem renumberLE_trans (a b c : Task) :
    renumberLE a b → renumberLE b c → renumberLE a c := by
  simp only [renumberLE_iff]
  omega

theorem enumFrom_serial_map (i : Nat) (l : List Task) :
    ((l.enumFrom i).map fun p => ((p.1 : Int) + 1))
      = (List.range' (i + 1) l.length).map (fun n : Nat => (n : Int)) := by
  induction l generalizing i with
  | nil => rfl
  | cons a l ih =>
    simp only [List.enumFrom, List.map_cons, List.length_cons, List.range'_succ,
      ih (i + 1), List.cons.injEq]
    exact ⟨by omega, trivial⟩

theorem handleAutoRenumber_serials (ts : List Task) :
    (handleAutoRenumber ts).map Task.serialNumber
      = (List.range' 1 ts.length).map (fun n : Nat => (n : Int)) := by
  unfold handleAutoRenumber
  rw [List.map_map]
  have h1 : (Task.serialNumber ∘ fun p : Nat × Task =>
      { p.2 with serialNumber := (p.1 : Int) + 1 })
      = fun p : Nat × Task => ((p.1 : Int) + 1) := rfl
  rw [h1]
  have h2 := enumFrom_serial_map 0 (ts.mergeSort renumberLE)
  rw [show (ts.mergeSort renumberLE).enum
      = (ts.mergeSort renumberLE).enumFrom 0 from rfl, h2,
    List.length_mergeSort]

theorem clearSerial_assign (l : List Task) :
    ((l.enum.map fun p => { p.2 with serialNumber := (p.1 : Int) + 1 }).map
        clearSerial)
      = l.map clearSerial := by
  rw [List.map_map]
  have h1 : (clearSerial ∘ fun p : Nat × Task =>
      { p.2 with serialNumber := (p.1 : Int) + 1 })
      = clearSerial ∘ Prod.snd := rfl
  rw [h1, ← List.map_map, List.enum_map_snd]

theorem clearSerial_renumber (ts : List Task) :
    (handleAutoRenumber ts).map clearSerial
      = (ts.mergeSort renumberLE).map clearSerial := by
  unfold handleAutoRenumber
  exact clearSerial_assign _

/-- Claim C1: for every non-empty task collection, `handleAutoRenumber`
sorts the tasks by descending priority weight (Urgent=4, High=3, Medium=2,
Low=1) and, within equal priority, by ascending due date, preserving the
original relative order of tasks equal on both keys (stable sort), and
assigns serial numbers that are exactly `1..N` in that order, with no
duplicates or gaps. -/
theorem handleAutoRenumber_correct (ts : List Task) (_hne : ts ≠ []) :
    (handleAutoRenumber ts).map Task.serialNumber
        = (List.range' 1 ts.length).map (fun n : Nat => (n : Int)) ∧
    ((handleAutoRenumber ts).map clearSerial).Perm (ts.map clearSerial) ∧
    (handleAutoRenumber ts).Pairwise (fun a b =>
      priorityWeight b.priority < priorityWeight a.priority ∨
        (priorityWeight a.priority = priorityWeight b.priority ∧
          a.dueDate ≤ b.dueDate)) ∧
    (∀ a b : Task, a.priority = b.priority → a.dueDate = b.dueDate →
      List.Sublist [a, b] ts →
      List.Sublist [clearSerial a, clearSerial b]
        ((handleAutoRenumber ts).map clearSerial)) := by
  refine ⟨handleAutoRenumber_serials ts, ?_, ?_, ?_⟩
  · rw [clearSerial_renumber]
    exact (List.mergeSort_perm ts renumberLE).map clearSerial
  · have hs := List.sorted_mergeSort renumberLE_trans renumberLE_total ts
    have hs2 : (ts.mergeSort renumberLE).Pairwise (fun a b =>
        priorityWeight b.priority < priorityWeight a.priority ∨
          (priorityWeight a.priority = priorityWeight b.priority ∧
            a.dueDate ≤ b.dueDate)) :=
      hs.imp (fun h => (renumberLE_iff _ _).mp h)
    unfold handleAutoRenumber
    rw [List.pairwise_map]
    have hs3 : ((ts.mergeSort renumberLE).enum.map Prod.snd).Pairwise
        (fun a b =>
          priorityWeight b.priority < priorityWeight a.priority ∨
            (priorityWeight a.priority = priorityWeight b.priority ∧
              a.dueDate ≤ b.dueDate)) := by
      rw [List.enum_map_snd]
      exact hs2
    rw [List.pairwise_map] at hs3
    exact hs3
  · intro a b hp hd hsub
    have hle : renumberLE a b = true :=
      (renumberLE_iff a b).mpr (Or.inr ⟨by rw [hp], by rw [hd]⟩)
    have h1 : List.Sublist [a, b] (ts.mergeSort renumberLE) :=
      List.pair_sublist_mergeSort renumberLE_trans renumberLE_total hle hsub
    have h2 := h1.map clearSerial
    rw [clearSerial_renumber]
    exact h2

/-- Witness for C1: the non-emptiness hypothesis holds for a concrete
three-task collection (the spec's Low/Urgent/Medium, equal due dates
example), and the theorem yields its serial assignment. -/
theorem handleAutoRenumber_correct_witness :
    (handleAutoRenumber [sampleTask "a" 5 Priority.low 0,
        sampleTask "b" 9 Priority.urgent 0,
        sampleTask "c" 7 Priority.medium 0]).map Task.serialNumber
      = (List.range' 1 3).map (fun n : Nat => (n : Int)) :=
  (handleAutoRenumber_correct
    [sampleTask "a" 5 Priority.low 0, sampleTask "b" 9 Priority.urgent 0,
      sampleTask "c" 7 Priority.medium 0] (by decide)).1

/-- Claim C2: converting a task to its storage row shape and normalizing
that row back yields the same task: the round trip is the identity up to
the evident (injective) embedding `Task.toRaw` into the raw fetched shape;
no default-filling fires because storage always writes every column. -/
theorem roundtrip_toStorage_toCanonical :
    (∀ (u : String) (t : Task), toCanonical (toStorage u t) = Task.toRaw t) ∧
    (∀ t₁ t₂ : Task, Task.toRaw t₁ = Task.toRaw t₂ → t₁ = t₂) := by
  constructor
  · intro u t
    by_cases h : t.progressNotes = "" <;>
      simp [toCanonical, toStorage, Task.toRaw, jsOrString, h]
  · intro t₁ t₂ h
    cases t₁
    cases t₂
    simp only [Task.toRaw, RawTask.mk.injEq, Option.some.injEq] at h
    obtain ⟨h1, h2, h3, h4, h5, h6, h7, h8, h9, h10, h11, h12⟩ := h
    subst h1 h2 h3 h4 h5 h6 h7 h8 h9 h10 h11 h12
    rfl

/-- Witness for C2: the round trip at a concrete user id and task, and
injectivity discharged at a concrete pair. -/
theorem roundtrip_toStorage_toCanonical_witness :
    toCanonical (toStorage "u0" (sampleTask "a" 1 Priority.low 0))
        = Task.toRaw (sampleTask "a" 1 Priority.low 0) ∧
      sampleTask "a" 1 Priority.low 0 = sampleTask "a" 1 Priority.low 0 :=
  ⟨roundtrip_toStorage_toCanonical.1 "u0" (sampleTask "a" 1 Priority.low 0),
    roundtrip_toStorage_toCanonical.2 _ _ rfl⟩

/-- Claim C3 counterexample: normalizing a store row whose `id` and `title`
(and every other column) are absent does not fail — the mapping has no
failure path, and no `MalformedRecordError` exists anywhere in the code.
It returns an ordinary value whose `id` and `title` are simply absent,
with the optional collections defaulted. -/
theorem toCanonical_missing_id_title :
    toCanonical emptyDbRow
        = { id := none, serialNumber := none, title := none
            description := none, priority := none, status := none
            dueDate := none, createdAt := none, subtasks := []
            tags := [], images := [], progressNotes := "" } ∧
      (toCanonical emptyDbRow).id = none ∧
      (toCanonical emptyDbRow).title = none :=
  ⟨rfl, rfl, rfl⟩

/-- Claim C3 (amended): normalization never fails; missing optional fields
(`subtasks`, `tags`, `images`, `progress_notes`) are defaulted to empty
values, while an absent `id` or `title` is passed through unchecked rather
than raising a `MalformedRecordError` (no such error exists in the code). -/
theorem toCanonical_total_defaults (r : DbRow) :
    (toCanonical r).subtasks = r.subtasks.getD [] ∧
    (toCanonical r).tags = r.tags.getD [] ∧
    (toCanonical r).images = r.images.getD [] ∧
    (toCanonical r).progressNotes = r.progress_notes.getD "" ∧
    (toCanonical r).id = r.id ∧
    (toCanonical r).title = r.title := by
  refine ⟨rfl, rfl, rfl, ?_, rfl, rfl⟩
  cases hpn : r.progress_notes with
  | none => simp [toCanonical, jsOrString, hpn]
  | some s =>
    by_cases hs : s = "" <;> simp [toCanonical, jsOrString, hpn, hs]

theorem importRowsGo_length (uuid : Nat → String) (now : Int) :
    ∀ (rows : List Row) (i : Nat) (m : Int),
      (importRowsGo uuid now i m rows).length = rows.length := by
  intro rows
  induction rows with
  | nil => intro i m; rfl
  | cons r rs ih =>
    intro i m
    by_cases h : rowHasPosSerial r <;> simp [importRowsGo, h, ih]

theorem importRowsGo_map {β : Type} (uuid : Nat → String) (now : Int)
    (f : ImportedTask → β) (g : Row → β)
    (hfg : ∀ id now2 serial r, f (mkImportedTask id now2 serial r) = g r) :
    ∀ (rows : List Row) (i : Nat) (m : Int),
      (importRowsGo uuid now i m rows).map f = rows.map g := by
  intro rows
  induction rows with
  | nil => intro i m; rfl
  | cons r rs ih =>
    intro i m
    by_cases h : rowHasPosSerial r <;> simp [importRowsGo, h, ih, hfg]

/-- Claim C4 counterexample: importing 5 rows of which 1 lacks a
resolvable title yields 5 new tasks, not 4 — the untitled row is not
skipped; it is imported with the substitute title `"Untitled Task"`. -/
theorem handleImportCSV_counterexample_untitled :
    (handleImportCSV [] (fun n : Nat => toString n) 0
        [rowTitled "A", rowTitled "B", emptyRow, rowTitled "C",
          rowTitled "D"]).length = 5 ∧
    decide ((handleImportCSV [] (fun n : Nat => toString n) 0
        [rowTitled "A", rowTitled "B", emptyRow, rowTitled "C",
          rowTitled "D"]).length = 4) = false ∧
    (handleImportCSV [] (fun n : Nat => toString n) 0
        [rowTitled "A", rowTitled "B", emptyRow, rowTitled "C",
          rowTitled "D"]).map ImportedTask.title
      = ["A", "B", "Untitled Task", "C", "D"] :=
  ⟨rfl, rfl, rfl⟩

/-- Claim C4 (amended): the import never skips a row — each parsed row
yields exactly one task, positionally, and a row whose title cannot be
resolved (absent header or blank cell) yields a task titled
`"Untitled Task"`; so 5 rows of which 1 lacks a title yield 5 new tasks. -/
theorem handleImportCSV_no_skip (tasks : List Task) (uuid : Nat → String)
    (now : Int) (rows : List Row) :
    (handleImportCSV tasks uuid now rows).length = rows.length ∧
    (handleImportCSV tasks uuid now rows).map ImportedTask.title
        = rows.map (fun r => importTitle r.title) ∧
    (∀ r : Row, r.title = none ∨ r.title = some (CellVal.str "") →
      importTitle r.title = "Untitled Task") := by
  refine ⟨importRowsGo_length uuid now rows 0 _,
    importRowsGo_map uuid now ImportedTask.title (fun r => importTitle r.title)
      (fun _ _ _ _ => rfl) rows 0 _, ?_⟩
  intro r hr
  rcases hr with h | h <;> rw [h] <;> rfl

/-- Witness for C4 (amended): the untitled-row hypothesis discharged on the
concrete all-absent row. -/
theorem handleImportCSV_no_skip_witness :
    importTitle emptyRow.title = "Untitled Task" :=
  (handleImportCSV_no_skip [] (fun n : Nat => toString n) 0 [emptyRow]).2.2
    emptyRow (Or.inl rfl)

/-- Claim C5 counterexample: the import's tag parsing does not remove empty
pieces (`"Work,,Review"` keeps the middle empty tag), and a truthy
non-string tags cell is stringified and split rather than yielding an
empty tag list. -/
theorem importTags_counterexample :
    (handleImportCSV [] (fun n : Nat => toString n) 0
        [rowWithTags (CellVal.str "Work,,Review"),
          rowWithTags (CellVal.num 7)]).map ImportedTask.tags
      = [["Work", "", "Review"], ["7"]] ∧
    decide ((["Work", "", "Review"] : List String) = ["Work", "Review"])
        = false ∧
    decide ((["7"] : List String) = []) = false :=
  ⟨rfl, rfl, rfl⟩

/-- Claim C5 (amended): a truthy tags cell is stringified, split on commas
and each piece trimmed, but empty pieces are kept; an absent or falsy tags
cell yields the empty tag list.  The spec's own example still holds:
`"Work, Urgent,  Review"` yields `["Work","Urgent","Review"]`. -/
theorem importTags_spec (tasks : List Task) (uuid : Nat → String) (now : Int)
    (rows : List Row) :
    (handleImportCSV tasks uuid now rows).map ImportedTask.tags
        = rows.map (fun r => importTags r.tags) ∧
    importTags none = [] ∧
    importTags (some (CellVal.str "")) = [] ∧
    (∀ s : String, s ≠ "" →
      importTags (some (CellVal.str s)) = (jsSplit ',' s).map jsTrim) ∧
    (∀ n : Int, n ≠ 0 →
      importTags (some (CellVal.num n))
        = (jsSplit ',' (toString n)).map jsTrim) ∧
    importTags (some (CellVal.str "Work, Urgent,  Review"))
        = ["Work", "Urgent", "Review"] := by
  refine ⟨importRowsGo_map uuid now ImportedTask.tags
      (fun r => importTags r.tags) (fun _ _ _ _ => rfl) rows 0 _,
    rfl, rfl, ?_, ?_, rfl⟩
  · intro s hs
    simp [importTags, jsTruthy, jsString, hs]
  · intro n hn
    simp [importTags, jsTruthy, jsString, hn]

/-- Witness for C5 (amended): the non-empty-string and non-zero-number
hypotheses discharged on concrete cells. -/
theorem importTags_spec_witness :
    importTags (some (CellVal.str "Work, Urgent,  Review"))
        = (jsSplit ',' "Work, Urgent,  Review").map jsTrim ∧
    importTags (some (CellVal.num 5))
        = (jsSplit ',' (toString (5 : Int))).map jsTrim :=
  ⟨(importTags_spec [] (fun n : Nat => toString n) 0 []).2.2.2.1
      "Work, Urgent,  Review" (by decide),
    (importTags_spec [] (fun n : Nat => toString n) 0 []).2.2.2.2.1 5
      (by decide)⟩

theorem importRowsGo_auto_serials (uuid : Nat → String) (now : Int) :
    ∀ (rows : List Row) (i : Nat) (m : Int),
      ((rows.zip (importRowsGo uuid now i m rows)).filter
          (fun p => ! rowHasPosSerial p.1)).map (fun p => p.2.serialNumber)
        = (List.range (rows.countP (fun r => ! rowHasPosSerial r))).map
            (fun k : Nat => m + 1 + (k : Int)) := by
  intro rows
  induction rows with
  | nil => intro i m; rfl
  | cons r rs ih =>
    intro i m
    by_cases h : rowHasPosSerial r
    · rw [show importRowsGo uuid now i m (r :: rs)
          = mkImportedTask (uuid i) now ((rowCsvSerial r).getD 0) r ::
              importRowsGo uuid now (i + 1) m rs from by
            simp [importRowsGo, h]]
      rw [List.zip_cons_cons, List.filter_cons_of_neg (by simp [h]),
        ih (i + 1) m]
      have hc : (r :: rs).countP (fun r => ! rowHasPosSerial r)
          = rs.countP (fun r => ! rowHasPosSerial r) := by
        simp [List.countP_cons, h]
      rw [hc]
    · rw [show importRowsGo uuid now i m (r :: rs)
          = mkImportedTask (uuid i) now (m + 1) r ::
              importRowsGo uuid now (i + 1) (m + 1) rs from by
            simp [importRowsGo, h]]
      rw [List.zip_cons_cons, List.filter_cons_of_pos (by simp [h]),
        List.map_cons, ih (i + 1) (m + 1)]
      have hc : (r :: rs).countP (fun r => ! rowHasPosSerial r)
          = rs.countP (fun r => ! rowHasPosSerial r) + 1 := by
        simp [List.countP_cons, h]
      rw [hc, List.range_succ_eq_map, List.map_cons, List.map_map]
      simp only [List.cons.injEq]
      refine ⟨by simp [mkImportedTask], ?_⟩
      refine List.map_congr_left ?_
      intro k hk
      simp only [Function.comp_apply, Nat.succ_eq_add_one]
      push_cast
      ring

/-- Claim C6: every imported row that does not supply a parseable positive
integer serial number is auto-assigned the next value after the maximum
serial number of the existing collection, incrementing by one per such row
(the auto-assigned serials are `max+1, max+2, ...` in row order, all
distinct); in particular two serial-less rows imported over a collection
whose maximum serial is 7 get serials 8 and 9. -/
theorem handleImportCSV_auto_serials (tasks : List Task) (uuid : Nat → String)
    (now : Int) (rows : List Row) :
    ((rows.zip (handleImportCSV tasks uuid now rows)).filter
        (fun p => ! rowHasPosSerial p.1)).map (fun p => p.2.serialNumber)
      = (List.range (rows.countP (fun r => ! rowHasPosSerial r))).map
          (fun k : Nat => maxSerialOf tasks + 1 + (k : Int)) ∧
    (((rows.zip (handleImportCSV tasks uuid now rows)).filter
        (fun p => ! rowHasPosSerial p.1)).map (fun p => p.2.serialNumber)).Nodup ∧
    (handleImportCSV [sampleTask "x" 7 Priority.low 0]
        (fun n : Nat => toString n) 0 [emptyRow, emptyRow]).map
        ImportedTask.serialNumber
      = [8, 9] := by
  have h1 := importRowsGo_auto_serials uuid now rows 0 (maxSerialOf tasks)
  refine ⟨h1, ?_, rfl⟩
  rw [show ((rows.zip (handleImportCSV tasks uuid now rows)).filter
      (fun p => ! rowHasPosSerial p.1)).map (fun p => p.2.serialNumber)
      = (List.range (rows.countP (fun r => ! rowHasPosSerial r))).map
          (fun k : Nat => maxSerialOf tasks + 1 + (k : Int)) from h1]
  refine List.Nodup.map ?_ (List.nodup_range _)
  intro a b hab
  have h2 : maxSerialOf tasks + 1 + (a : Int)
      = maxSerialOf tasks + 1 + (b : Int) := hab
  omega

/-- Claim C7 counterexample: an unrecognized non-empty priority or status
cell is NOT replaced by the Medium / Pending fallback — the raw cell value
is kept (the source casts without validating against the enumerations). -/
theorem importPriority_counterexample :
    (handleImportCSV [] (fun n : Nat => toString n) 0 [rowOddEnums]).map
        (fun t => (t.priority, t.status))
      = [(CellVal.str "banana", CellVal.str "Odd")] ∧
    decide (CellVal.str "banana" = CellVal.str "Medium") = false ∧
    decide (CellVal.str "Odd" = CellVal.str "Pending") = false :=
  ⟨rfl, rfl, rfl⟩

/-- Claim C7 (amended): an absent or falsy priority/status cell falls back
to `"Medium"` / `"Pending"`, but any truthy cell value is used as-is, with
no validation against the enumerations. -/
theorem importPriorityStatus_spec (tasks : List Task) (uuid : Nat → String)
    (now : Int) (rows : List Row) :
    (handleImportCSV tasks uuid now rows).map ImportedTask.priority
        = rows.map (fun r => importPriorityVal r.priority) ∧
    (handleImportCSV tasks uuid now rows).map ImportedTask.status
        = rows.map (fun r => importStatusVal r.status) ∧
    importPriorityVal none = CellVal.str "Medium" ∧
    importStatusVal none = CellVal.str "Pending" ∧
    (∀ v : CellVal, jsTruthy v = false →
      importPriorityVal (some v) = CellVal.str "Medium" ∧
        importStatusVal (some v) = CellVal.str "Pending") ∧
    (∀ v : CellVal, jsTruthy v = true →
      importPriorityVal (some v) = v ∧ importStatusVal (some v) = v) := by
  refine ⟨importRowsGo_map uuid now ImportedTask.priority
      (fun r => importPriorityVal r.priority) (fun _ _ _ _ => rfl) rows 0 _,
    importRowsGo_map uuid now ImportedTask.status
      (fun r => importStatusVal r.status) (fun _ _ _ _ => rfl) rows 0 _,
    rfl, rfl, ?_, ?_⟩
  · intro v hv
    constructor <;> simp [importPriorityVal, importStatusVal, jsOrVal, hv]
  · intro v hv
    constructor <;> simp [importPriorityVal, importStatusVal, jsOrVal, hv]

/-- Witness for C7 (amended): the falsy and truthy hypotheses discharged on
concrete cells. -/
theorem importPriorityStatus_spec_witness :
    (importPriorityVal (some (CellVal.str "")) = CellVal.str "Medium" ∧
      importStatusVal (some (CellVal.str "")) = CellVal.str "Pending") ∧
    (importPriorityVal (some (CellVal.str "banana")) = CellVal.str "banana" ∧
      importStatusVal (some (CellVal.str "banana")) = CellVal.str "banana") :=
  ⟨(importPriorityStatus_spec [] (fun n : Nat => toString n) 0
        []).2.2.2.2.1 (CellVal.str "") (by decide),
    (importPriorityStatus_spec [] (fun n : Nat => toString n) 0
        []).2.2.2.2.2 (CellVal.str "banana") (by decide)⟩

/-- Claim C8: in remote mode a failed backend read is surfaced to the
caller — `fetchTasks` rethrows the error and never substitutes an empty
collection for it. -/
theorem fetchTasksRemote_surfaces_error :
    (∀ e : String, fetchTasksRemote (.error e) = .error e) ∧
    (∀ e : String, (fetchTasksRemote (.error e)).isOk = false) :=
  ⟨fun _ => rfl, fun _ => rfl⟩

/-- Claim C9 counterexample: local-mode fetch does not shield a malformed
blob — there is no try/catch around `JSON.parse`, so the SyntaxError the
builtin raises on a malformed blob (here a lone opening brace) propagates
instead of an empty sequence being returned. -/
theorem fetchTasksLocal_malformed_counterexample :
    fetchTasksLocal jsonParseModel (some "\x7b")
        = .error "SyntaxError: unexpected end of JSON input" ∧
    (fetchTasksLocal jsonParseModel (some "\x7b")).isOk = false :=
  ⟨rfl, rfl⟩

/-- Claim C9 (amended): with no stored blob (or an empty one) the
local-mode fetch returns the empty sequence without error; a malformed
blob is not caught — whatever error `JSON.parse` raises propagates to the
caller. -/
theorem fetchTasksLocal_spec (jsonParse : String → Except String (List Task)) :
    fetchTasksLocal jsonParse none = .ok [] ∧
    (∀ s e, s ≠ "" → jsonParse s = .error e →
      fetchTasksLocal jsonParse (some s) = .error e) := by
  refine ⟨rfl, ?_⟩
  intro s e hs hp
  simp [fetchTasksLocal, hs, hp]

/-- Witness for C9 (amended): the absent-blob case and the malformed-blob
hypotheses discharged on the modelled `JSON.parse`. -/
theorem fetchTasksLocal_spec_witness :
    fetchTasksLocal jsonParseModel none = .ok [] ∧
    fetchTasksLocal jsonParseModel (some "\x7b")
        = .error "SyntaxError: unexpected end of JSON input" :=
  ⟨(fetchTasksLocal_spec jsonParseModel).1,
    (fetchTasksLocal_spec jsonParseModel).2 "\x7b" _ (by decide) rfl⟩

/-- Claim C10: toggling the status of a task present in the collection
(ids unique) flips exactly that task's status — to Pending if it was
Completed, to Completed otherwise (so In Progress goes straight to
Completed) — leaves every other field of the task unchanged, and leaves
every other task unchanged. -/
theorem handleToggleStatus_correct (tasks : List Task) (task : Task)
    (hmem : task ∈ tasks) (hnodup : (tasks.map Task.id).Nodup) :
    handleToggleStatus tasks task
        = tasks.map (fun u =>
            if u.id = task.id then
              { task with status :=
                  if task.status = Status.completed then Status.pending
                  else Status.completed }
            else u) ∧
    (∀ u ∈ tasks, u.id ≠ task.id → u ∈ handleToggleStatus tasks task) ∧
    clearStatus { task with status :=
        if task.status = Status.completed then Status.pending
        else Status.completed } = clearStatus task := by
  have hfind : tasks.find? (fun t => t.id = task.id) = some task := by
    cases hf : tasks.find? (fun t => t.id = task.id) with
    | none =>
      rw [List.find?_eq_none] at hf
      exact absurd (by simp) (hf task hmem)
    | some t0 =>
      have hp : t0.id = task.id := by
        have := List.find?_some hf
        simpa using this
      have hm0 : t0 ∈ tasks := List.mem_of_find?_eq_some hf
      have ht : t0 = task := List.inj_on_of_nodup_map hnodup hm0 hmem hp
      rw [ht]
  have hmain : handleToggleStatus tasks task
      = tasks.map (fun u =>
          if u.id = task.id then
            { task with status :=
                if task.status = Status.completed then Status.pending
                else Status.completed }
          else u) := by
    unfold handleToggleStatus
    rw [hfind]
    simp
  refine ⟨hmain, ?_, rfl⟩
  intro u hu hne2
  rw [hmain]
  exact List.mem_map.mpr ⟨u, hu, by simp [hne2]⟩

/-- Witness for C10: membership and id-uniqueness discharged on a concrete
two-task collection. -/
theorem handleToggleStatus_correct_witness :
    handleToggleStatus
        [sampleTask "a" 1 Priority.low 0, sampleTask "b" 2 Priority.high 5]
        (sampleTask "a" 1 Priority.low 0)
      = [sampleTask "a" 1 Priority.low 0,
          sampleTask "b" 2 Priority.high 5].map
          (fun u =>
            if u.id = (sampleTask "a" 1 Priority.low 0).id then
              { sampleTask "a" 1 Priority.low 0 with status :=
                  if (sampleTask "a" 1 Priority.low 0).status
                      = Status.completed
                  then Status.pending else Status.completed }
            else u) :=
  (handleToggleStatus_correct
      [sampleTask "a" 1 Priority.low 0, sampleTask "b" 2 Priority.high 5]
      (sampleTask "a" 1 Priority.low 0) (by decide) (by decide)).1

end TaskGenie
